import Mathlib

/-!
Verification of the meal-catalogue module (`kitchen_model.py`).

The module's operations (`create_meal`, `delete_meal`, `get_meal_by_id`,
`get_meal_by_name`, `update_meal_stats`, `get_leaderboard`) are embedded as
pure functions over an explicit table state `DB`.  Each operation returns the
outcome (`Except Err _`), the table state after the call, and the list of log
events it emitted, mirroring the Python control flow branch by branch.
Prices are modelled as rationals, the `battles`/`wins` counters as integers.
-/

/-- Error taxonomy of the catalogue operations; each constructor corresponds
to one family of `ValueError` messages raised by the Python code. -/
inductive Err where
  | invalidArgument : Err
  | notFound : Err
  | alreadyDeleted : Err
  | duplicateName : Err
deriving DecidableEq

/-- Log events emitted by the module (the `logger.info` / `logger.error`
calls), abstracted to the event kind and its payload. -/
inductive LogEvent where
  | mealAdded (name : String)
  | duplicateMeal (name : String)
  | mealAlreadyDeleted (id : Nat)
  | mealNotFound (id : Nat)
  | mealNameAlreadyDeleted (name : String)
  | mealNameNotFound (name : String)
  | mealMarkedDeleted (id : Nat)
  | leaderboardRetrieved
  | invalidSortBy (s : String)
deriving DecidableEq

/-- One row of the `meals` table: the five record attributes plus the
statistics columns `battles`, `wins` and the soft-delete flag `deleted`. -/
structure MealRow where
  id : Nat
  meal : String
  cuisine : String
  price : ℚ
  difficulty : String
  battles : Int
  wins : Int
  deleted : Bool
deriving DecidableEq

/-- Modelled from the spec: the persistent `meals` table.  Its SQL schema
file is not part of the sources; per the spec's data model the store keeps
rows in insertion order, generates a fresh integer identifier for each
insert (`nextId` is the identifier the next insert receives), and enforces a
uniqueness constraint on the name column regardless of the deleted flag. -/
structure DB where
  rows : List MealRow
  nextId : Nat
deriving DecidableEq

/-- The `Meal` dataclass: the projection returned by the point lookups.
It carries no statistics fields. -/
structure Meal where
  id : Nat
  meal : String
  cuisine : String
  price : ℚ
  difficulty : String
deriving DecidableEq

/-- `Meal.__post_init__`: validates `price` and `difficulty` after
initialization, returning the constructed record or a `ValueError`. -/
def mkMeal (id : Nat) (meal cuisine : String) (price : ℚ) (difficulty : String) :
    Except Err Meal :=
  if price < 0 then .error .invalidArgument
  else if difficulty ∉ ["LOW", "MED", "HIGH"] then .error .invalidArgument
  else .ok ⟨id, meal, cuisine, price, difficulty⟩

/-- `SELECT ... FROM meals WHERE id = ?` followed by `fetchone()`: the first
row of the table with the given identifier, if any. -/
def DB.lookupId (db : DB) (meal_id : Nat) : Option MealRow :=
  db.rows.find? (fun r => r.id = meal_id)

/-- `SELECT ... FROM meals WHERE meal = ?` followed by `fetchone()`: the
first row of the table with the given name, if any. -/
def DB.lookupName (db : DB) (meal_name : String) : Option MealRow :=
  db.rows.find? (fun r => r.meal = meal_name)

/-- `create_meal`: validates that the price is positive and the difficulty is
one of LOW/MED/HIGH, then inserts a row with `battles = 0`, `wins = 0`,
`deleted = false`.  The duplicate-name condition is modelled from the spec:
the schema (not in the sources) places a UNIQUE constraint on the name
column regardless of the deleted flag, which the code surfaces as a
`ValueError` on `sqlite3.IntegrityError` (after a `logger.error`).  The two
argument-validation failures are raised without any log call. -/
def create_meal (meal cuisine : String) (price : ℚ) (difficulty : String) (db : DB) :
    Except Err Unit × DB × List LogEvent :=
  if price ≤ 0 then (.error .invalidArgument, db, [])
  else if difficulty ∉ ["LOW", "MED", "HIGH"] then (.error .invalidArgument, db, [])
  else if db.rows.any (fun r => r.meal == meal) then
    (.error .duplicateName, db, [.duplicateMeal meal])
  else
    (.ok (),
      ⟨db.rows ++ [⟨db.nextId, meal, cuisine, price, difficulty, 0, 0, false⟩],
        db.nextId + 1⟩,
      [.mealAdded meal])

/-- `delete_meal`: looks the row up by id; `fetchone()` returning no row
raises not-found, a row with the deleted flag set raises already-deleted,
otherwise the row's deleted flag is set to true and committed. -/
def delete_meal (meal_id : Nat) (db : DB) : Except Err Unit × DB × List LogEvent :=
  match db.lookupId meal_id with
  | none => (.error .notFound, db, [.mealNotFound meal_id])
  | some r =>
    if r.deleted then (.error .alreadyDeleted, db, [.mealAlreadyDeleted meal_id])
    else
      (.ok (),
        ⟨db.rows.map (fun s => if s.id = meal_id then { s with deleted := true } else s),
          db.nextId⟩,
        [.mealMarkedDeleted meal_id])

/-- `get_meal_by_id`: not-found / already-deleted as in `delete_meal`;
otherwise the fetched row is passed through the `Meal` constructor (whose
validation runs again on the stored values). -/
def get_meal_by_id (meal_id : Nat) (db : DB) : Except Err Meal × DB × List LogEvent :=
  match db.lookupId meal_id with
  | none => (.error .notFound, db, [.mealNotFound meal_id])
  | some r =>
    if r.deleted then (.error .alreadyDeleted, db, [.mealAlreadyDeleted meal_id])
    else
      match mkMeal r.id r.meal r.cuisine r.price r.difficulty with
      | .ok m => (.ok m, db, [])
      | .error e => (.error e, db, [])

/-- `get_meal_by_name`: as `get_meal_by_id`, keyed on the name column. -/
def get_meal_by_name (meal_name : String) (db : DB) : Except Err Meal × DB × List LogEvent :=
  match db.lookupName meal_name with
  | none => (.error .notFound, db, [.mealNameNotFound meal_name])
  | some r =>
    if r.deleted then (.error .alreadyDeleted, db, [.mealNameAlreadyDeleted meal_name])
    else
      match mkMeal r.id r.meal r.cuisine r.price r.difficulty with
      | .ok m => (.ok m, db, [])
      | .error e => (.error e, db, [])

/-- `update_meal_stats`: not-found / already-deleted checks first, then a
`win` increments both `battles` and `wins`, a `loss` increments `battles`
only, and any other outcome raises a `ValueError` without a log call. -/
def update_meal_stats (meal_id : Nat) (result : String) (db : DB) :
    Except Err Unit × DB × List LogEvent :=
  match db.lookupId meal_id with
  | none => (.error .notFound, db, [.mealNotFound meal_id])
  | some r =>
    if r.deleted then (.error .alreadyDeleted, db, [.mealAlreadyDeleted meal_id])
    else if result = "win" then
      (.ok (),
        ⟨db.rows.map (fun s => if s.id = meal_id then
            { s with battles := s.battles + 1, wins := s.wins + 1 } else s),
          db.nextId⟩, [])
    else if result = "loss" then
      (.ok (),
        ⟨db.rows.map (fun s => if s.id = meal_id then
            { s with battles := s.battles + 1 } else s),
          db.nextId⟩, [])
    else (.error .invalidArgument, db, [])

/-- Round half to even, the rounding of Python's builtin `round`, stated on
rationals. -/
def roundHalfEven (q : ℚ) : Int :=
  if q - ⌊q⌋ < 1 / 2 then ⌊q⌋
  else if 1 / 2 < q - ⌊q⌋ then ⌊q⌋ + 1
  else if ⌊q⌋ % 2 = 0 then ⌊q⌋ else ⌊q⌋ + 1

/-- The `win_pct` column of the leaderboard query: `wins * 1.0 / battles`. -/
def winFrac (r : MealRow) : ℚ := (r.wins : ℚ) / (r.battles : ℚ)

/-- One leaderboard entry as assembled by `get_leaderboard` from a fetched
row; `win_pct` is the percentage rounded to one decimal place. -/
structure LeaderboardEntry where
  id : Nat
  meal : String
  cuisine : String
  price : ℚ
  difficulty : String
  battles : Int
  wins : Int
  win_pct : ℚ
deriving DecidableEq

/-- The per-row projection of `get_leaderboard`:
`round(win_pct * 100, 1)` converts the win fraction to a percentage with one
decimal place. -/
def toEntry (r : MealRow) : LeaderboardEntry :=
  ⟨r.id, r.meal, r.cuisine, r.price, r.difficulty, r.battles, r.wins,
    (roundHalfEven (winFrac r * 100 * 10) : ℚ) / 10⟩

/-- The `WHERE deleted = false AND battles > 0` selection of the
leaderboard query. -/
def leaderboardRows (db : DB) : List MealRow :=
  db.rows.filter (fun r => !r.deleted && decide (0 < r.battles))

/-- `get_leaderboard`: validates the sort key (`win_pct` checked first, then
`wins`, anything else raises after a `logger.error`), selects the non-deleted
rows with at least one battle, orders them descending on the chosen key, and
projects each row to a leaderboard entry. -/
def get_leaderboard (sort_by : String) (db : DB) :
    Except Err (List LeaderboardEntry) × DB × List LogEvent :=
  if sort_by = "win_pct" then
    (.ok (((leaderboardRows db).mergeSort
        (fun a b => decide (winFrac b ≤ winFrac a))).map toEntry),
      db, [.leaderboardRetrieved])
  else if sort_by = "wins" then
    (.ok (((leaderboardRows db).mergeSort
        (fun a b => decide (b.wins ≤ a.wins))).map toEntry),
      db, [.leaderboardRetrieved])
  else (.error .invalidArgument, db, [.invalidSortBy sort_by])

/-- Table states reachable from the empty table by any sequence of the three
mutating operations (a failing call returns the state unchanged, so the
constructors cover failing calls as well). -/
inductive Reachable : DB → Prop where
  | init : Reachable ⟨[], 1⟩
  | create (m c : String) (p : ℚ) (d : String) {db : DB} :
      Reachable db → Reachable (create_meal m c p d db).2.1
  | delete (i : Nat) {db : DB} :
      Reachable db → Reachable (delete_meal i db).2.1
  | update (i : Nat) (res : String) {db : DB} :
      Reachable db → Reachable (update_meal_stats i res db).2.1

instance {ε α : Type} [DecidableEq ε] [DecidableEq α] : DecidableEq (Except ε α) := fun x y =>
  match x, y with
  | .ok a, .ok b => if h : a = b then .isTrue (by rw [h]) else .isFalse (by simp [h])
  | .ok _, .error _ => .isFalse (by simp)
  | .error _, .ok _ => .isFalse (by simp)
  | .error e, .error f => if h : e = f then .isTrue (by rw [h]) else .isFalse (by simp [h])

/-- The record validator only ever fails with an invalid-argument error. -/
theorem mkMeal_error (n : Nat) (m c : String) (p : ℚ) (d : String) (e : Err)
    (h : mkMeal n m c p d = .error e) : e = .invalidArgument := by
  unfold mkMeal at h
  split_ifs at h <;> simp_all

/-- C7: the record validator fails with invalid-argument on every negative
price and on every difficulty outside LOW/MED/HIGH, and succeeds on every
nonnegative price combined with a recognized difficulty, returning the
record with exactly the given fields (so price 0 is accepted here). -/
theorem mkMeal_spec (n : Nat) (m c : String) (p : ℚ) (d : String) :
    (p < 0 → mkMeal n m c p d = .error .invalidArgument) ∧
    (d ∉ ["LOW", "MED", "HIGH"] → mkMeal n m c p d = .error .invalidArgument) ∧
    (0 ≤ p → d ∈ ["LOW", "MED", "HIGH"] → mkMeal n m c p d = .ok ⟨n, m, c, p, d⟩) := by
  refine ⟨fun hp => ?_, fun hd => ?_, fun hp hd => ?_⟩
  · simp [mkMeal, hp]
  · by_cases hp : p < 0 <;> simp [mkMeal, hp, hd]
  · simp [mkMeal, not_lt.mpr hp, hd]

theorem mkMeal_spec_witness :
    ((-1 : ℚ) < 0 ∧ mkMeal 1 "X" "c" (-1) "LOW" = .error .invalidArgument) ∧
    ("XL" ∉ ["LOW", "MED", "HIGH"] ∧ mkMeal 1 "X" "c" 2 "XL" = .error .invalidArgument) ∧
    ((0 : ℚ) ≤ 0 ∧ mkMeal 1 "X" "c" 0 "LOW" = .ok ⟨1, "X", "c", 0, "LOW"⟩) :=
  ⟨⟨by decide, (mkMeal_spec 1 "X" "c" (-1) "LOW").1 (by decide)⟩,
   ⟨by decide, (mkMeal_spec 1 "X" "c" 2 "XL").2.1 (by decide)⟩,
   ⟨by decide, (mkMeal_spec 1 "X" "c" 0 "LOW").2.2 (by decide) (by decide)⟩⟩

/-- C3: `create_meal` fails with invalid-argument for every price ≤ 0 and
for every difficulty outside LOW/MED/HIGH; it fails with duplicate-name
whenever any row (soft-deleted rows included) already carries the name;
otherwise it appends exactly one new row with the given fields, zero
statistics, `deleted = false`, and the freshly generated identifier. -/
theorem create_meal_spec (db : DB) (m c : String) (p : ℚ) (d : String) :
    (p ≤ 0 → (create_meal m c p d db).1 = .error .invalidArgument) ∧
    (d ∉ ["LOW", "MED", "HIGH"] → (create_meal m c p d db).1 = .error .invalidArgument) ∧
    (0 < p → d ∈ ["LOW", "MED", "HIGH"] → (∃ r ∈ db.rows, r.meal = m) →
      (create_meal m c p d db).1 = .error .duplicateName) ∧
    (0 < p → d ∈ ["LOW", "MED", "HIGH"] → (∀ r ∈ db.rows, r.meal ≠ m) →
      (create_meal m c p d db).1 = .ok () ∧
      (create_meal m c p d db).2.1.rows
        = db.rows ++ [⟨db.nextId, m, c, p, d, 0, 0, false⟩] ∧
      (create_meal m c p d db).2.1.nextId = db.nextId + 1) := by
  refine ⟨fun hp => ?_, fun hd => ?_, fun hp hd hdup => ?_, fun hp hd hnone => ?_⟩
  · simp [create_meal, hp]
  · by_cases hp : p ≤ 0 <;> simp [create_meal, hp, hd]
  · have hany : db.rows.any (fun r => r.meal == m) = true := by
      rcases hdup with ⟨r, hr, he⟩
      exact List.any_eq_true.mpr ⟨r, hr, by simp [he]⟩
    simp [create_meal, not_le.mpr hp, hd, hany]
  · have hany : db.rows.any (fun r => r.meal == m) = false := by
      simp only [List.any_eq_false]
      intro r hr
      simp [hnone r hr]
    simp [create_meal, not_le.mpr hp, hd, hany]

theorem create_meal_spec_witness :
    ((0 : ℚ) ≤ 0 ∧ (create_meal "X" "c" 0 "LOW" ⟨[], 1⟩).1 = .error .invalidArgument) ∧
    ((create_meal "X" "c" 5 "XL" ⟨[], 1⟩).1 = .error .invalidArgument) ∧
    ((create_meal "X" "c" 5 "LOW" ⟨[⟨1, "X", "c", 5, "LOW", 0, 0, true⟩], 2⟩).1
        = .error .duplicateName) ∧
    ((create_meal "Y" "c" 5 "LOW" ⟨[⟨1, "X", "c", 5, "LOW", 0, 0, true⟩], 2⟩).1 = .ok ()) :=
  ⟨⟨by decide, (create_meal_spec ⟨[], 1⟩ "X" "c" 0 "LOW").1 (by decide)⟩,
   (create_meal_spec ⟨[], 1⟩ "X" "c" 5 "XL").2.1 (by decide),
   (create_meal_spec ⟨[⟨1, "X", "c", 5, "LOW", 0, 0, true⟩], 2⟩ "X" "c" 5 "LOW").2.2.1
     (by decide) (by decide) ⟨⟨1, "X", "c", 5, "LOW", 0, 0, true⟩, by decide, rfl⟩,
   ((create_meal_spec ⟨[⟨1, "X", "c", 5, "LOW", 0, 0, true⟩], 2⟩ "Y" "c" 5 "LOW").2.2.2
     (by decide) (by decide) (by decide)).1⟩

/-- C10: whenever `create_meal`, `delete_meal`, or `update_meal_stats`
returns a typed failure, the table state it returns is exactly the input
state — no partial update is committed. -/
theorem error_atomicity (db : DB) (m c : String) (p : ℚ) (d : String)
    (i : Nat) (out : String) :
    (∀ e, (create_meal m c p d db).1 = .error e → (create_meal m c p d db).2.1 = db) ∧
    (∀ e, (delete_meal i db).1 = .error e → (delete_meal i db).2.1 = db) ∧
    (∀ e, (update_meal_stats i out db).1 = .error e →
      (update_meal_stats i out db).2.1 = db) := by
  refine ⟨fun e he => ?_, fun e he => ?_, fun e he => ?_⟩
  · unfold create_meal at he ⊢
    split_ifs at he ⊢ <;> simp_all
  · unfold delete_meal at he ⊢
    cases hl : db.lookupId i with
    | none => simp [hl]
    | some r =>
      dsimp only at he ⊢
      split_ifs at he ⊢ <;> simp_all
  · unfold update_meal_stats at he ⊢
    cases hl : db.lookupId i with
    | none => simp [hl]
    | some r =>
      dsimp only at he ⊢
      split_ifs at he ⊢ <;> simp_all

theorem error_atomicity_witness :
    (create_meal "X" "c" 0 "LOW" ⟨[], 1⟩).1 = .error .invalidArgument ∧
    (create_meal "X" "c" 0 "LOW" ⟨[], 1⟩).2.1 = ⟨[], 1⟩ :=
  ⟨by decide,
   (error_atomicity ⟨[], 1⟩ "X" "c" 0 "LOW" 1 "win").1 .invalidArgument (by decide)⟩

/-- C9 counterexample: `create_meal` with a nonpositive price propagates an
invalid-argument failure without emitting any log event. -/
theorem log_on_failure_cex :
    (create_meal "X" "Greek" 0 "LOW" ⟨[], 1⟩).1 = .error .invalidArgument ∧
    (create_meal "X" "Greek" 0 "LOW" ⟨[], 1⟩).2.2 = [] := by
  exact ⟨rfl, rfl⟩

/-- C9 amended: every not-found, already-deleted and duplicate-name failure
of every operation, and `get_leaderboard`'s invalid-argument failure, is
preceded by a log event; only the argument-validation failures of
`create_meal` and `update_meal_stats`, and the record-validation failures
surfaced by the lookups, propagate without a log event. -/
theorem log_on_failure_amended (db : DB) (m c : String) (p : ℚ) (d : String)
    (i : Nat) (n out sb : String) :
    (∀ e, (create_meal m c p d db).1 = .error e → e ≠ .invalidArgument →
      (create_meal m c p d db).2.2 ≠ []) ∧
    (∀ e, (delete_meal i db).1 = .error e → (delete_meal i db).2.2 ≠ []) ∧
    (∀ e, (update_meal_stats i out db).1 = .error e → e ≠ .invalidArgument →
      (update_meal_stats i out db).2.2 ≠ []) ∧
    (∀ e, (get_meal_by_id i db).1 = .error e → e ≠ .invalidArgument →
      (get_meal_by_id i db).2.2 ≠ []) ∧
    (∀ e, (get_meal_by_name n db).1 = .error e → e ≠ .invalidArgument →
      (get_meal_by_name n db).2.2 ≠ []) ∧
    (∀ e, (get_leaderboard sb db).1 = .error e → (get_leaderboard sb db).2.2 ≠ []) := by
  refine ⟨fun e he hne => ?_, fun e he => ?_, fun e he hne => ?_,
    fun e he hne => ?_, fun e he hne => ?_, fun e he => ?_⟩
  · unfold create_meal at he ⊢
    split_ifs at he ⊢ <;> simp_all
  · unfold delete_meal at he ⊢
    cases hl : db.lookupId i with
    | none => simp
    | some r =>
      dsimp only at he ⊢
      split_ifs at he ⊢ <;> simp_all
  · unfold update_meal_stats at he ⊢
    cases hl : db.lookupId i with
    | none => simp
    | some r =>
      dsimp only at he ⊢
      split_ifs at he ⊢ <;> simp_all
  · unfold get_meal_by_id at he ⊢
    cases hl : db.lookupId i with
    | none => simp
    | some r =>
      rw [hl] at he
      dsimp only at he ⊢
      split_ifs at he ⊢
      · simp
      · cases hm : mkMeal r.id r.meal r.cuisine r.price r.difficulty with
        | ok v => rw [hm] at he; simp_all
        | error f =>
          rw [hm] at he
          simp only [Except.error.injEq] at he
          cases he
          exact absurd (mkMeal_error r.id r.meal r.cuisine r.price r.difficulty e hm) hne
  · unfold get_meal_by_name at he ⊢
    cases hl : db.lookupName n with
    | none => simp
    | some r =>
      rw [hl] at he
      dsimp only at he ⊢
      split_ifs at he ⊢
      · simp
      · cases hm : mkMeal r.id r.meal r.cuisine r.price r.difficulty with
        | ok v => rw [hm] at he; simp_all
        | error f =>
          rw [hm] at he
          simp only [Except.error.injEq] at he
          cases he
          exact absurd (mkMeal_error r.id r.meal r.cuisine r.price r.difficulty e hm) hne
  · unfold get_leaderboard at he ⊢
    split_ifs at he ⊢
    simp_all

theorem log_on_failure_amended_witness :
    (delete_meal 1 (⟨[], 1⟩ : DB)).1 = .error .notFound ∧
    (delete_meal 1 (⟨[], 1⟩ : DB)).2.2 ≠ [] :=
  ⟨rfl,
   (log_on_failure_amended ⟨[], 1⟩ "X" "c" 5 "LOW" 1 "X" "win" "wins").2.1 .notFound rfl⟩

/-- Updating rows in place (the embedding of `UPDATE ... WHERE id = ?`)
commutes with the id lookup when the update preserves identifiers. -/
theorem find?_map_upd (rows : List MealRow) (i : Nat) (g : MealRow → MealRow)
    (hg : ∀ r, (g r).id = r.id) :
    (rows.map (fun s => if s.id = i then g s else s)).find? (fun r => r.id = i)
      = Option.map g (rows.find? (fun r => r.id = i)) := by
  induction rows with
  | nil => rfl
  | cons a tl ih =>
    by_cases h : a.id = i
    · simp [h, hg]
    · simp [h, ih]

/-- Rows whose identifier differs are untouched by an in-place update. -/
theorem mem_map_upd (rows : List MealRow) (i : Nat) (g : MealRow → MealRow)
    (s : MealRow) (hs : s ∈ rows) (hid : s.id ≠ i) :
    s ∈ rows.map (fun s => if s.id = i then g s else s) :=
  List.mem_map.mpr ⟨s, hs, by simp [hid]⟩

/-- A lookup that lands on a soft-deleted row makes `delete_meal` fail with
already-deleted. -/
theorem delete_already (db : DB) (i : Nat) (r : MealRow)
    (h : db.lookupId i = some r) (hdel : r.deleted = true) :
    (delete_meal i db).1 = .error .alreadyDeleted := by
  simp [delete_meal, h, hdel]

/-- C4: `delete_meal` fails with not-found when no row has the identifier,
fails with already-deleted when that row's deleted flag is set, and
otherwise marks exactly that row deleted, leaving other rows untouched; a
second delete of the same identifier then fails with already-deleted. -/
theorem delete_meal_spec (db : DB) (i : Nat) :
    (db.lookupId i = none → (delete_meal i db).1 = .error .notFound) ∧
    (∀ r, db.lookupId i = some r → r.deleted = true →
      (delete_meal i db).1 = .error .alreadyDeleted) ∧
    (∀ r, db.lookupId i = some r → r.deleted = false →
      (delete_meal i db).1 = .ok () ∧
      (delete_meal i db).2.1.lookupId i = some { r with deleted := true } ∧
      (∀ s ∈ db.rows, s.id ≠ i → s ∈ (delete_meal i db).2.1.rows) ∧
      (delete_meal i (delete_meal i db).2.1).1 = .error .alreadyDeleted) := by
  refine ⟨fun h => ?_, fun r h hdel => delete_already db i r h hdel, fun r h hdel => ?_⟩
  · simp [delete_meal, h]
  · have hrows : (delete_meal i db).2.1.rows
        = db.rows.map (fun s => if s.id = i then { s with deleted := true } else s) := by
      simp [delete_meal, h, hdel]
    have hlook : (delete_meal i db).2.1.lookupId i = some { r with deleted := true } := by
      unfold DB.lookupId
      rw [hrows]
      unfold DB.lookupId at h
      rw [find?_map_upd db.rows i (fun s => { s with deleted := true }) (fun _ => rfl), h]
      simp
    refine ⟨by simp [delete_meal, h, hdel], hlook, fun s hs hid => ?_, ?_⟩
    · rw [hrows]
      exact mem_map_upd db.rows i _ s hs hid
    · exact delete_already _ i _ hlook rfl

theorem delete_meal_spec_witness :
    (delete_meal 1 (⟨[⟨1, "X", "c", 5, "LOW", 0, 0, false⟩], 2⟩ : DB)).1 = .ok () ∧
    (delete_meal 1 (delete_meal 1 (⟨[⟨1, "X", "c", 5, "LOW", 0, 0, false⟩], 2⟩ : DB)).2.1).1
      = .error .alreadyDeleted :=
  ⟨((delete_meal_spec ⟨[⟨1, "X", "c", 5, "LOW", 0, 0, false⟩], 2⟩ 1).2.2
      ⟨1, "X", "c", 5, "LOW", 0, 0, false⟩ (by decide) rfl).1,
   ((delete_meal_spec ⟨[⟨1, "X", "c", 5, "LOW", 0, 0, false⟩], 2⟩ 1).2.2
      ⟨1, "X", "c", 5, "LOW", 0, 0, false⟩ (by decide) rfl).2.2.2⟩

/-- C1: on a present, non-deleted row, `update_meal_stats` with outcome
"win" increments that row's battles and wins by one, with "loss" increments
battles only and leaves wins unchanged (other rows untouched in both
cases), and with any other outcome fails with invalid-argument; it fails
with not-found when no row has the identifier and with already-deleted when
the row's deleted flag is set. -/
theorem update_meal_stats_spec (db : DB) (i : Nat) (out : String) :
    (∀ r, db.lookupId i = some r → r.deleted = false →
      ((update_meal_stats i "win" db).1 = .ok () ∧
        (update_meal_stats i "win" db).2.1.lookupId i
          = some { r with battles := r.battles + 1, wins := r.wins + 1 } ∧
        (∀ s ∈ db.rows, s.id ≠ i → s ∈ (update_meal_stats i "win" db).2.1.rows)) ∧
      ((update_meal_stats i "loss" db).1 = .ok () ∧
        (update_meal_stats i "loss" db).2.1.lookupId i
          = some { r with battles := r.battles + 1 } ∧
        (∀ s ∈ db.rows, s.id ≠ i → s ∈ (update_meal_stats i "loss" db).2.1.rows)) ∧
      (out ≠ "win" → out ≠ "loss" →
        (update_meal_stats i out db).1 = .error .invalidArgument)) ∧
    (db.lookupId i = none → (update_meal_stats i out db).1 = .error .notFound) ∧
    (∀ r, db.lookupId i = some r → r.deleted = true →
      (update_meal_stats i out db).1 = .error .alreadyDeleted) := by
  refine ⟨fun r h hdel => ?_, fun h => by simp [update_meal_stats, h],
    fun r h hdel => by simp [update_meal_stats, h, hdel]⟩
  have hwin : (update_meal_stats i "win" db).2.1.rows
      = db.rows.map (fun s => if s.id = i then
          { s with battles := s.battles + 1, wins := s.wins + 1 } else s) := by
    simp [update_meal_stats, h, hdel]
  have hloss : (update_meal_stats i "loss" db).2.1.rows
      = db.rows.map (fun s => if s.id = i then { s with battles := s.battles + 1 } else s) := by
    simp [update_meal_stats, h, hdel]
  refine ⟨⟨?_, ?_, fun s hs hid => ?_⟩, ⟨?_, ?_, fun s hs hid => ?_⟩, fun hw hl => ?_⟩
  · simp [update_meal_stats, h, hdel]
  · unfold DB.lookupId
    rw [hwin]
    unfold DB.lookupId at h
    rw [find?_map_upd db.rows i
      (fun s => { s with battles := s.battles + 1, wins := s.wins + 1 }) (fun _ => rfl), h]
    simp
  · rw [hwin]
    exact mem_map_upd db.rows i _ s hs hid
  · simp [update_meal_stats, h, hdel]
  · unfold DB.lookupId
    rw [hloss]
    unfold DB.lookupId at h
    rw [find?_map_upd db.rows i
      (fun s => { s with battles := s.battles + 1 }) (fun _ => rfl), h]
    simp
  · rw [hloss]
    exact mem_map_upd db.rows i _ s hs hid
  · simp [update_meal_stats, h, hdel, hw, hl]

theorem update_meal_stats_spec_witness :
    (update_meal_stats 1 "win" (⟨[⟨1, "X", "c", 5, "LOW", 2, 1, false⟩], 2⟩ : DB)).2.1.lookupId 1
      = some ⟨1, "X", "c", 5, "LOW", 2 + 1, 1 + 1, false⟩ ∧
    (update_meal_stats 1 "loss" (⟨[⟨1, "X", "c", 5, "LOW", 2, 1, false⟩], 2⟩ : DB)).2.1.lookupId 1
      = some ⟨1, "X", "c", 5, "LOW", 2 + 1, 1, false⟩ ∧
    (update_meal_stats 1 "draw" (⟨[⟨1, "X", "c", 5, "LOW", 2, 1, false⟩], 2⟩ : DB)).1
      = .error .invalidArgument :=
  ⟨((update_meal_stats_spec ⟨[⟨1, "X", "c", 5, "LOW", 2, 1, false⟩], 2⟩ 1 "draw").1
      ⟨1, "X", "c", 5, "LOW", 2, 1, false⟩ (by decide) rfl).1.2.1,
   ((update_meal_stats_spec ⟨[⟨1, "X", "c", 5, "LOW", 2, 1, false⟩], 2⟩ 1 "draw").1
      ⟨1, "X", "c", 5, "LOW", 2, 1, false⟩ (by decide) rfl).2.1.2.1,
   ((update_meal_stats_spec ⟨[⟨1, "X", "c", 5, "LOW", 2, 1, false⟩], 2⟩ 1 "draw").1
      ⟨1, "X", "c", 5, "LOW", 2, 1, false⟩ (by decide) rfl).2.2
      (by decide) (by decide)⟩

/-- C5: the point lookups fail with not-found when no row matches the key,
fail with already-deleted when the matching row is soft-deleted, and
otherwise return exactly the id/name/cuisine/price/difficulty projection of
the matching row; the `Meal` projection type carries no statistics fields. -/
theorem get_meal_spec (db : DB) (i : Nat) (n : String) :
    (db.lookupId i = none → (get_meal_by_id i db).1 = .error .notFound) ∧
    (∀ r, db.lookupId i = some r → r.deleted = true →
      (get_meal_by_id i db).1 = .error .alreadyDeleted) ∧
    (∀ r, db.lookupId i = some r → r.deleted = false → 0 ≤ r.price →
      r.difficulty ∈ ["LOW", "MED", "HIGH"] →
      (get_meal_by_id i db).1 = .ok ⟨r.id, r.meal, r.cuisine, r.price, r.difficulty⟩) ∧
    (db.lookupName n = none → (get_meal_by_name n db).1 = .error .notFound) ∧
    (∀ r, db.lookupName n = some r → r.deleted = true →
      (get_meal_by_name n db).1 = .error .alreadyDeleted) ∧
    (∀ r, db.lookupName n = some r → r.deleted = false → 0 ≤ r.price →
      r.difficulty ∈ ["LOW", "MED", "HIGH"] →
      (get_meal_by_name n db).1 = .ok ⟨r.id, r.meal, r.cuisine, r.price, r.difficulty⟩) := by
  refine ⟨fun h => by simp [get_meal_by_id, h],
    fun r h hdel => by simp [get_meal_by_id, h, hdel],
    fun r h hdel hp hd => by simp [get_meal_by_id, h, hdel, mkMeal, not_lt.mpr hp, hd],
    fun h => by simp [get_meal_by_name, h],
    fun r h hdel => by simp [get_meal_by_name, h, hdel],
    fun r h hdel hp hd => by simp [get_meal_by_name, h, hdel, mkMeal, not_lt.mpr hp, hd]⟩

theorem get_meal_spec_witness :
    (get_meal_by_id 1 (⟨[⟨1, "X", "c", 5, "LOW", 0, 0, false⟩], 2⟩ : DB)).1
      = .ok ⟨1, "X", "c", 5, "LOW"⟩ ∧
    (get_meal_by_name "X" (⟨[⟨1, "X", "c", 5, "LOW", 0, 0, false⟩], 2⟩ : DB)).1
      = .ok ⟨1, "X", "c", 5, "LOW"⟩ :=
  ⟨(get_meal_spec ⟨[⟨1, "X", "c", 5, "LOW", 0, 0, false⟩], 2⟩ 1 "X").2.2.1
      ⟨1, "X", "c", 5, "LOW", 0, 0, false⟩ (by decide) rfl (by decide) (by decide),
   (get_meal_spec ⟨[⟨1, "X", "c", 5, "LOW", 0, 0, false⟩], 2⟩ 1 "X").2.2.2.2.2
      ⟨1, "X", "c", 5, "LOW", 0, 0, false⟩ (by decide) rfl (by decide) (by decide)⟩

/-- C8: starting from any table in which the name is not yet present and in
which the generated identifier is fresh, a successful `create_meal` is
followed by successful lookups both by the generated identifier and by the
name, each returning exactly the created attribute values. -/
theorem create_roundtrip (db : DB) (m c : String) (p : ℚ) (d : String)
    (hname : ∀ r ∈ db.rows, r.meal ≠ m) (hid : ∀ r ∈ db.rows, r.id ≠ db.nextId)
    (hp : 0 < p) (hd : d ∈ ["LOW", "MED", "HIGH"]) :
    (create_meal m c p d db).1 = .ok () ∧
    (get_meal_by_id db.nextId (create_meal m c p d db).2.1).1
      = .ok ⟨db.nextId, m, c, p, d⟩ ∧
    (get_meal_by_name m (create_meal m c p d db).2.1).1
      = .ok ⟨db.nextId, m, c, p, d⟩ := by
  have hany : db.rows.any (fun r => r.meal == m) = false := by
    simp only [List.any_eq_false]
    intro r hr
    simp [hname r hr]
  have hrows : (create_meal m c p d db).2.1.rows
      = db.rows ++ [⟨db.nextId, m, c, p, d, 0, 0, false⟩] := by
    simp [create_meal, not_le.mpr hp, hd, hany]
  have hlookI : (create_meal m c p d db).2.1.lookupId db.nextId
      = some ⟨db.nextId, m, c, p, d, 0, 0, false⟩ := by
    unfold DB.lookupId
    rw [hrows, List.find?_append]
    have h1 : db.rows.find? (fun r => r.id = db.nextId) = none :=
      List.find?_eq_none.mpr (fun r hr => by simp [hid r hr])
    rw [h1]
    simp
  have hlookN : (create_meal m c p d db).2.1.lookupName m
      = some ⟨db.nextId, m, c, p, d, 0, 0, false⟩ := by
    unfold DB.lookupName
    rw [hrows, List.find?_append]
    have h1 : db.rows.find? (fun r => r.meal = m) = none :=
      List.find?_eq_none.mpr (fun r hr => by simp [hname r hr])
    rw [h1]
    simp
  refine ⟨by simp [create_meal, not_le.mpr hp, hd, hany], ?_, ?_⟩
  · simp [get_meal_by_id, hlookI, mkMeal, not_lt.mpr (le_of_lt hp), hd]
  · simp [get_meal_by_name, hlookN, mkMeal, not_lt.mpr (le_of_lt hp), hd]

theorem create_roundtrip_witness :
    (get_meal_by_id 1 (create_meal "X" "c" 5 "LOW" ⟨[], 1⟩).2.1).1
      = .ok ⟨1, "X", "c", 5, "LOW"⟩ ∧
    (get_meal_by_name "X" (create_meal "X" "c" 5 "LOW" ⟨[], 1⟩).2.1).1
      = .ok ⟨1, "X", "c", 5, "LOW"⟩ :=
  ⟨(create_roundtrip ⟨[], 1⟩ "X" "c" 5 "LOW" (by simp) (by simp) (by decide)
      (by decide)).2.1,
   (create_roundtrip ⟨[], 1⟩ "X" "c" 5 "LOW" (by simp) (by simp) (by decide)
      (by decide)).2.2⟩

/-- C6: in every table state reachable from the empty table by any sequence
of `create_meal`, `delete_meal` and `update_meal_stats` calls, every row
satisfies `0 ≤ battles`, `0 ≤ wins` and `wins ≤ battles`. -/
theorem stats_invariant (db : DB) (h : Reachable db) :
    ∀ r ∈ db.rows, 0 ≤ r.battles ∧ 0 ≤ r.wins ∧ r.wins ≤ r.battles := by
  induction h with
  | init => simp
  | create m c p d hdb ih =>
    rename_i db0
    intro r hr
    unfold create_meal at hr
    split_ifs at hr
    all_goals
      first
      | exact ih r hr
      | (rcases List.mem_append.mp hr with h1 | h2
         · exact ih r h1
         · simp only [List.mem_singleton] at h2
           subst h2
           exact ⟨le_refl 0, le_refl 0, le_refl 0⟩)
  | delete i hdb ih =>
    rename_i db0
    intro r hr
    by_cases hok : ∃ s, db0.lookupId i = some s ∧ s.deleted = false
    · rcases hok with ⟨s, hs, hsdel⟩
      have hrows : (delete_meal i db0).2.1.rows
          = db0.rows.map (fun t => if t.id = i then { t with deleted := true } else t) := by
        simp [delete_meal, hs, hsdel]
      rw [hrows] at hr
      rcases List.mem_map.mp hr with ⟨t, ht, rfl⟩
      have hb := ih t ht
      by_cases hti : t.id = i <;> simpa [hti] using hb
    · have hsame : (delete_meal i db0).2.1 = db0 := by
        unfold delete_meal
        cases hl : db0.lookupId i with
        | none => rfl
        | some s =>
          have hsdel : s.deleted = true := by
            by_contra hc
            exact hok ⟨s, hl, by simpa using hc⟩
          simp [hsdel]
      rw [hsame] at hr
      exact ih r hr
  | update i res hdb ih =>
    rename_i db0
    intro r hr
    by_cases hok : ∃ s, db0.lookupId i = some s ∧ s.deleted = false
    · rcases hok with ⟨s, hs, hsdel⟩
      by_cases hw : res = "win"
      · have hrows : (update_meal_stats i res db0).2.1.rows
            = db0.rows.map (fun t => if t.id = i then
                { t with battles := t.battles + 1, wins := t.wins + 1 } else t) := by
          simp [update_meal_stats, hs, hsdel, hw]
        rw [hrows] at hr
        rcases List.mem_map.mp hr with ⟨t, ht, rfl⟩
        have hb := ih t ht
        by_cases hti : t.id = i <;> simp [hti] <;> omega
      · by_cases hl2 : res = "loss"
        · have hrows : (update_meal_stats i res db0).2.1.rows
              = db0.rows.map (fun t => if t.id = i then
                  { t with battles := t.battles + 1 } else t) := by
            simp [update_meal_stats, hs, hsdel, hw, hl2]
          rw [hrows] at hr
          rcases List.mem_map.mp hr with ⟨t, ht, rfl⟩
          have hb := ih t ht
          by_cases hti : t.id = i <;> simp [hti] <;> omega
        · have hsame : (update_meal_stats i res db0).2.1 = db0 := by
            simp [update_meal_stats, hs, hsdel, hw, hl2]
          rw [hsame] at hr
          exact ih r hr
    · have hsame : (update_meal_stats i res db0).2.1 = db0 := by
        unfold update_meal_stats
        cases hl : db0.lookupId i with
        | none => rfl
        | some s =>
          have hsdel : s.deleted = true := by
            by_contra hc
            exact hok ⟨s, hl, by simpa using hc⟩
          simp [hsdel]
      rw [hsame] at hr
      exact ih r hr

theorem stats_invariant_witness :
    0 ≤ (⟨1, "X", "c", 5, "LOW", 1, 1, false⟩ : MealRow).battles ∧
    0 ≤ (⟨1, "X", "c", 5, "LOW", 1, 1, false⟩ : MealRow).wins ∧
    (⟨1, "X", "c", 5, "LOW", 1, 1, false⟩ : MealRow).wins
      ≤ (⟨1, "X", "c", 5, "LOW", 1, 1, false⟩ : MealRow).battles :=
  stats_invariant _
    (Reachable.update 1 "win" (Reachable.create "X" "c" 5 "LOW" Reachable.init))
    ⟨1, "X", "c", 5, "LOW", 1, 1, false⟩ (by decide)

/-- C2: `get_leaderboard` with sort key "wins" or "win_pct" succeeds and
returns exactly the non-deleted rows with at least one battle, each
projected to a leaderboard entry (id, name, cuisine, price, difficulty,
battles, wins, and the win percentage rounded to one decimal place), in
descending order of the chosen key (win count, or the wins/battles ratio);
any other sort key fails with invalid-argument. -/
theorem get_leaderboard_spec (db : DB) (sort_by : String) :
    (sort_by = "wins" → ∃ l, (get_leaderboard sort_by db).1 = .ok l ∧
      l.Perm ((leaderboardRows db).map toEntry) ∧
      l.Pairwise (fun a b => b.wins ≤ a.wins)) ∧
    (sort_by = "win_pct" → ∃ l, (get_leaderboard sort_by db).1 = .ok l ∧
      l.Perm ((leaderboardRows db).map toEntry) ∧
      l.Pairwise (fun a b =>
        (b.wins : ℚ) / (b.battles : ℚ) ≤ (a.wins : ℚ) / (a.battles : ℚ))) ∧
    (sort_by ≠ "wins" → sort_by ≠ "win_pct" →
      (get_leaderboard sort_by db).1 = .error .invalidArgument) := by
  refine ⟨fun hw => ?_, fun hwp => ?_, fun h1 h2 => ?_⟩
  · subst hw
    refine ⟨((leaderboardRows db).mergeSort (fun a b => decide (b.wins ≤ a.wins))).map toEntry,
      rfl, (List.mergeSort_perm (leaderboardRows db) _).map toEntry, ?_⟩
    rw [List.pairwise_map]
    have hs := @List.sorted_mergeSort MealRow
      (fun a b : MealRow => decide (b.wins ≤ a.wins))
      (fun a b c hab hbc => decide_eq_true
        (le_trans (of_decide_eq_true hbc) (of_decide_eq_true hab)))
      (fun a b => by rcases le_total a.wins b.wins with h | h <;> simp [h])
      (leaderboardRows db)
    exact hs.imp (fun hab => of_decide_eq_true hab)
  · subst hwp
    refine ⟨((leaderboardRows db).mergeSort
        (fun a b => decide (winFrac b ≤ winFrac a))).map toEntry,
      rfl, (List.mergeSort_perm (leaderboardRows db) _).map toEntry, ?_⟩
    rw [List.pairwise_map]
    have hs := @List.sorted_mergeSort MealRow
      (fun a b : MealRow => decide (winFrac b ≤ winFrac a))
      (fun a b c hab hbc => decide_eq_true
        (le_trans (of_decide_eq_true hbc) (of_decide_eq_true hab)))
      (fun a b => by rcases le_total (winFrac a) (winFrac b) with h | h <;> simp [h])
      (leaderboardRows db)
    exact hs.imp (fun hab => of_decide_eq_true hab)
  · unfold get_leaderboard
    rw [if_neg h2, if_neg h1]

theorem get_leaderboard_spec_witness :
    ∃ l, (get_leaderboard "wins"
        (⟨[⟨1, "X", "c", 5, "LOW", 4, 3, false⟩], 2⟩ : DB)).1 = .ok l ∧
      l.Perm ((leaderboardRows ⟨[⟨1, "X", "c", 5, "LOW", 4, 3, false⟩], 2⟩).map toEntry) ∧
      l.Pairwise (fun a b => b.wins ≤ a.wins) :=
  (get_leaderboard_spec ⟨[⟨1, "X", "c", 5, "LOW", 4, 3, false⟩], 2⟩ "wins").1 rfl
